import Mathlib

/-!
Verification of the CAP alert transformation in
`msc_pygeoapi/loader/cap_alerts.py` (`CapAlertsRealtimeLoader`).

The Python methods `_get_date_format`, `_get_element` and
`weather_warning2geojson` are shallowly embedded below.  XML access in the
source goes through `_get_element` on a parsed `lxml` tree; the document
model used by the pipeline embedding (`CapDocument`/`InfoBlock`/`AreaBlock`)
carries exactly the element texts the source extracts, so a field read here
corresponds to the `_get_element` call at the matching source line.
Python exceptions that the source can raise inside `weather_warning2geojson`
(`ValueError` from `strptime`/`float`, `KeyError` from `del`/dict lookup,
`IndexError` from `poly[-1]` and list indexing, and the `UnboundLocalError`
from `return data` when `data` was never assigned) are modelled with
`Except PyErr`.
-/

set_option maxHeartbeats 1000000

namespace CapAlerts

/-- A calendar instant at second precision, the payload of the naive-UTC
Python `datetime` values used by the loader. -/
structure DateTime where
  year : Nat
  month : Nat
  day : Nat
  hour : Nat
  minute : Nat
  second : Nat
deriving DecidableEq

/-- Pack the six fields into the decimal number `YYYYMMDDHHMMSS`.  For
fields inside calendar ranges (which is an invariant of every Python
`datetime`), comparison of keys coincides with Python `datetime`
comparison, so `<` on keys embeds the `<`/`>` tests in the source. -/
def DateTime.key (d : DateTime) : Nat :=
  ((((d.year * 100 + d.month) * 100 + d.day) * 100 + d.hour) * 100 + d.minute) * 100
    + d.second

/-- Zero-padded `k`-digit decimal rendering of `n`, i.e. the `%Y`, `%m`,
`%d`, `%H`, `%M`, `%S` directives of `strftime`. -/
def padNat : Nat → Nat → List Char
  | 0, _ => []
  | k + 1, n => padNat k (n / 10) ++ [Char.ofNat (48 + n % 10)]

/-- `datetime.strftime('%Y-%m-%dT%H:%M:%SZ')`, the `timeformat` used
throughout `weather_warning2geojson`. -/
def strftime (d : DateTime) : String :=
  String.mk (padNat 4 d.year ++ ['-'] ++ padNat 2 d.month ++ ['-'] ++ padNat 2 d.day
    ++ ['T'] ++ padNat 2 d.hour ++ [':'] ++ padNat 2 d.minute ++ [':']
    ++ padNat 2 d.second ++ ['Z'])

/-- Gregorian leap-year rule, as applied by Python's `datetime` validation. -/
def isLeapYear (y : Nat) : Bool :=
  (y % 4 == 0 && y % 100 != 0) || y % 400 == 0

/-- Days in a month, as validated by the `datetime` constructor that
`strptime` calls. -/
def daysInMonth (y m : Nat) : Nat :=
  if m = 2 then (if isLeapYear y then 29 else 28)
  else if m = 4 ∨ m = 6 ∨ m = 9 ∨ m = 11 then 30
  else 31

/-- Decimal value of a digit string (most significant digit first). -/
def digitsToNat (l : List Char) : Nat :=
  l.foldl (fun a c => a * 10 + (c.toNat - 48)) 0

/-- The field-range validation performed by
`datetime.strptime(date, "%Y%m%d%H%M%S")`: Python `datetime` accepts years
1..9999, months 1..12, month-valid days, and time fields below 24/60/60. -/
def fieldsOK (y mo d h mi s : Nat) : Prop :=
  1 ≤ y ∧ y ≤ 9999 ∧ 1 ≤ mo ∧ mo ≤ 12 ∧ 1 ≤ d ∧ d ≤ daysInMonth y mo ∧
    h ≤ 23 ∧ mi ≤ 59 ∧ s ≤ 59

instance (y mo d h mi s : Nat) : Decidable (fieldsOK y mo d h mi s) := by
  unfold fieldsOK; infer_instance

/-- `datetime.strptime(date, "%Y%m%d%HH%MM%SS")` on the (already truncated)
input: on a 14-character digit string the directives `%Y%m%d%H%M%S` consume
4+2+2+2+2+2 characters; anything else (wrong length, non-digits, or fields
out of calendar range) raises `ValueError`, modelled by `none`. -/
def parse14 (s : List Char) : Option DateTime :=
  if s.length = 14 ∧ s.all Char.isDigit then
    let y := digitsToNat (s.take 4)
    let mo := digitsToNat ((s.drop 4).take 2)
    let d := digitsToNat ((s.drop 6).take 2)
    let h := digitsToNat ((s.drop 8).take 2)
    let mi := digitsToNat ((s.drop 10).take 2)
    let se := digitsToNat ((s.drop 12).take 2)
    if fieldsOK y mo d h mi se then some ⟨y, mo, d, h, mi, se⟩ else none
  else none

/-- The invariant satisfied by every `DateTime` the pipeline manipulates
(Python `datetime` objects cannot hold out-of-range fields). -/
def validDT (d : DateTime) : Prop :=
  fieldsOK d.year d.month d.day d.hour d.minute d.second

instance (d : DateTime) : Decidable (validDT d) := by
  unfold validDT; infer_instance

/-- One pass of the loop
`for char in ["T", "-", ":"]: if char in date: date = date.replace(char, '')`
in `_get_date_format`. -/
def replStep (s : List Char) (c : Char) : List Char :=
  if c ∈ s then s.filter (fun a => decide (a ≠ c)) else s

/-- `CapAlertsRealtimeLoader._get_date_format`: strip `T`, `-`, `:`,
truncate to the first 14 characters (`date[:14]`), and parse as
`%Y%m%d%H%M%S`. -/
def get_date_format (date : String) : Option DateTime :=
  parse14 ((['T', '-', ':'].foldl replStep date.data).take 14)

example : get_date_format "2024-01-16T00:00:00Z" = some ⟨2024, 1, 16, 0, 0, 0⟩ := by
  decide

example : strftime ⟨2024, 1, 16, 0, 0, 0⟩ = "2024-01-16T00:00:00Z" := by decide

example : get_date_format "20240230000000" = none := by decide

/-! ### String utilities used by `weather_warning2geojson` -/

/-- Worker for `re.split(' |,', tag)`: cut at every single space or comma,
keeping empty pieces, exactly as `re.split` with a one-character
alternation does. -/
def splitRun : List Char → List Char → List String
  | [], acc => [String.mk acc.reverse]
  | c :: rest, acc =>
    if c = ' ' ∨ c = ',' then String.mk acc.reverse :: splitRun rest []
    else splitRun rest (c :: acc)

/-- `split_tag = re.split(' |,', tag)`. -/
def splitTag (tag : String) : List String :=
  splitRun tag.data []

/-- Worker for `references.split(',')[-1]`: the characters after the last
comma (the whole string when no comma occurs), which is exactly the last
element of `str.split(',')`. -/
def lastSegment : List Char → List Char → String
  | [], acc => String.mk acc.reverse
  | c :: rest, acc => if c = ',' then lastSegment rest [] else lastSegment rest (c :: acc)

/-- `lastref = references.split(',')[-1]`. -/
def lastRef (references : String) : String :=
  lastSegment references.data []

/-- The characters removed by Python `str.strip()` (ASCII whitespace). -/
def isPySpace (c : Char) : Bool :=
  decide (c ∈ ([' ', '\t', '\n', '\r', '\x0b', '\x0c'] : List Char))

/-- Python `str.strip()`. -/
def pyStrip (s : List Char) : List Char :=
  ((s.dropWhile isPySpace).reverse.dropWhile isPySpace).reverse

/-- `descript = ... .replace("\n", " ").strip()` as applied to every
`description` element text. -/
def descProc (s : String) : String :=
  String.mk (pyStrip (s.data.map (fun c => if c = '\n' then ' ' else c)))

/-- `re.sub('[-, .]', '', tag)`: drop every `-`, `,`, space and `.`. -/
def reSubClean (s : List Char) : List Char :=
  s.filter (fun c => decide (¬ (c = '-' ∨ c = ',' ∨ c = ' ' ∨ c = '.')))

/-- `id_warning = 'a-{}'.format(re.sub('[-, .]', '', tag)[:25])`, the
derived AreaKey. -/
def idWarningOf (tag : String) : String :=
  "a-" ++ String.mk ((reSubClean tag.data).take 25)

/-- The numeric value `num / 10 ^ exp`, an exact-decimal stand-in for the
Python floats produced by `float()` on CAP coordinate tokens.  Values are
kept canonical (`exp = 0`, or `num` not divisible by 10), so structural
equality coincides with value equality — matching the `==` comparison on
floats used by the duplicate-vertex filter. -/
structure PyNum where
  num : Int
  exp : Nat
deriving DecidableEq

/-- Cancel trailing factors of ten so that equal decimal values get equal
representations. -/
def canonDec : Int → Nat → Int × Nat
  | n, 0 => (n, 0)
  | n, e + 1 => if n % 10 = 0 then canonDec (n / 10) e else (n, e + 1)

/-- Build the canonical `PyNum` with value `n / 10 ^ e`. -/
def mkPyNum (n : Int) (e : Nat) : PyNum :=
  ⟨(canonDec n e).1, (canonDec n e).2⟩

/-- The literal `0.0` appended as elevation to every coordinate. -/
def pyZero : PyNum := ⟨0, 0⟩

/-- Models Python `float()` on an unsigned plain decimal token (digits with
an optional fractional part), the only shape occurring in CAP polygon
strings. -/
def pyFloatPos (s : List Char) : Option PyNum :=
  let intPart := s.takeWhile Char.isDigit
  let rest := s.dropWhile Char.isDigit
  match rest with
  | [] => if intPart.isEmpty then none else some (mkPyNum (digitsToNat intPart) 0)
  | '.' :: frac =>
    if (intPart.isEmpty && frac.isEmpty) || !(frac.all Char.isDigit) then none
    else some (mkPyNum (digitsToNat intPart * 10 ^ frac.length + digitsToNat frac)
      frac.length)
  | _ => none

/-- Models Python `float()` on a plain decimal token with optional leading
sign; `none` is the `ValueError` raised on malformed input. -/
def pyFloat (s : String) : Option PyNum :=
  match s.data with
  | '-' :: rest => (pyFloatPos rest).map (fun q => ⟨-q.num, q.exp⟩)
  | l => pyFloatPos l

example : splitTag "45.0,-75.0 45.1,-75.0" = ["45.0", "-75.0", "45.1", "-75.0"] := by
  decide

example : splitTag "" = [""] := by decide

example : lastRef "a,b,c" = "c" := by decide

example : idWarningOf "45.0,-75.0 45.1,-75.0 45.1,-75.1" = "a-450750451750451751" := by
  decide

example : pyFloat "-75.1" = some ⟨-751, 1⟩ := by decide

example : pyFloat "45.0" = some ⟨45, 0⟩ := by decide

example : pyFloat "45.10" = pyFloat "45.1" := by decide

example : pyFloat "x" = none := by decide

/-! ### The XML extractor `_get_element` -/

/-- A parsed XML element: tag, attributes, text (`none` models lxml's
`text is None`), children. -/
inductive XNode where
  | node (tag : String) (attrs : List (String × String)) (text : Option String)
      (children : List XNode)

def XNode.tag : XNode → String
  | .node t _ _ _ => t

def XNode.attrs : XNode → List (String × String)
  | .node _ a _ _ => a

def XNode.text : XNode → Option String
  | .node _ _ tx _ => tx

def XNode.children : XNode → List XNode
  | .node _ _ _ c => c

/-- `node.find(path)` for a plain (namespaced) tag path: the first child
whose tag matches, or `None`. -/
def XNode.find (n : XNode) (path : String) : Option XNode :=
  n.children.find? (fun c => decide (c.tag = path))

/-- `val.attrib.get(attrib)`: first matching attribute value, or `None`. -/
def attribGet (v : XNode) (a : String) : Option String :=
  (v.attrs.find? (fun p => decide (p.1 = a))).map Prod.snd

/-- `CapAlertsRealtimeLoader._get_element`.  `hasattr(val, 'text')` is true
exactly when `find` resolved (an element always has `.text`), and
`val.text not in [None, '']` is the non-empty-text test. -/
def get_element (node : XNode) (path : String) (attrib : Option String) : Option String :=
  let val := node.find path
  match attrib, val with
  | some a, some v => attribGet v a
  | _, _ =>
    match val with
    | some v =>
      match v.text with
      | some t => if t = "" then none else some t
      | none => none
    | none => none

/-! ### The document model and the alert-record builder

A `CapDocument` carries the element texts that `weather_warning2geojson`
extracts with `_get_element`; each field below names the source expression
it stands for.  The fields are `String`s: the spec treats a missing
mandatory element as fatal for the document before the logic under
verification runs. -/

/-- One `<area>` element. -/
structure AreaBlock where
  /-- text of `<polygon>` (`tag` in the source) -/
  polygon : String
  /-- text of `<areaDesc>` (`name` in the source) -/
  areaDesc : String
deriving DecidableEq

/-- One `<info>` element (`grandchild` in the source). -/
structure InfoBlock where
  /-- text of `<language>` -/
  language : String
  /-- text of `<headline>` -/
  headline : String
  /-- text of `<description>` (before the `.replace("\n", " ").strip()`) -/
  description : String
  /-- text of `<effective>` (raw date string) -/
  effective : String
  /-- text of `<expires>` (raw date string) -/
  expires : String
  /-- text of `parameter[last()-4]/value` (`status_alert` in the source) -/
  status_alert : String
  /-- text of `parameter[1]/value` (`warning` in the source) -/
  warning : String
  /-- the `<area>` children iterated by `grandchild.iter('{}area')` -/
  areas : List AreaBlock
deriving DecidableEq

/-- One CAP document as consumed by `weather_warning2geojson`. -/
structure CapDocument where
  /-- text of the top-level `<identifier>` -/
  identifier : String
  /-- text of the top-level `<references>` -/
  references : String
  /-- the `<info>` blocks iterated by `root.iter('{}info')` -/
  infos : List InfoBlock
deriving DecidableEq

/-- The tuple stored in `french_alert[id_warning]`. -/
structure FrRecord where
  id_warning : String
  name : String
  headline : String
  descript : String
deriving DecidableEq

/-- The tuple stored in `english_alert[id_warning]` (indices 0-9 in the
source). -/
structure EnRecord where
  split_tag : List String
  name : String
  headline : String
  effective : String
  expires : String
  warning : String
  status_alert : String
  id_warning : String
  descript : String
  url : String
deriving DecidableEq

instance {ε α : Type} [DecidableEq ε] [DecidableEq α] : DecidableEq (Except ε α)
  | .error a, .error b =>
    if h : a = b then isTrue (by rw [h])
    else isFalse (by intro c; injection c; contradiction)
  | .error _, .ok _ => isFalse (by intro c; cases c)
  | .ok _, .error _ => isFalse (by intro c; cases c)
  | .ok a, .ok b =>
    if h : a = b then isTrue (by rw [h])
    else isFalse (by intro c; injection c; contradiction)

/-- Python exceptions reachable inside `weather_warning2geojson`. -/
inductive PyErr where
  /-- `ValueError` (from `strptime` or `float`) -/
  | valueError
  /-- `KeyError` (dict deletion or lookup of a missing key) -/
  | keyError
  /-- `IndexError` (`poly[-1]` on an empty list, list index out of range) -/
  | indexError
  /-- `UnboundLocalError` (`return data` with `data` never assigned) -/
  | unboundLocal
deriving DecidableEq

/-- Python dicts preserve insertion order; both alert mappings are modelled
as ordered association lists with unique keys.  `lookupA` is `d[k]` /
`k in d`. -/
def lookupA {β : Type} : List (String × β) → String → Option β
  | [], _ => none
  | (k, v) :: t, key => if k = key then some v else lookupA t key

/-- `del d[k]` (the key is unique in every reachable state). -/
def eraseA {β : Type} : List (String × β) → String → List (String × β)
  | [], _ => []
  | (k, v) :: t, key => if k = key then t else (k, v) :: eraseA t key

/-- The key view of a mapping. -/
def keysA {β : Type} (m : List (String × β)) : List String :=
  m.map Prod.fst

/-- The mutable state of one `weather_warning2geojson` call: the two alert
dictionaries and `list_id`. -/
structure BState where
  french_alert : List (String × FrRecord)
  english_alert : List (String × EnRecord)
  list_id : List String
deriving DecidableEq

/-- One iteration of the French `for i in grandchild.iter('{}area')` loop:
derive the AreaKey and insert the 4-tuple if the key is absent. -/
def frInsert (headline descript : String) (st : BState) (a : AreaBlock) : BState :=
  let tag := a.polygon
  let name := a.areaDesc
  let id_warning := idWarningOf tag
  if lookupA st.french_alert id_warning = none then
    { st with french_alert :=
        st.french_alert ++ [(id_warning, ⟨id_warning, name, headline, descript⟩)] }
  else st

/-- One iteration of the English `for i in grandchild.iter('{}area')` loop:
derive the AreaKey, split the polygon, and insert the 10-tuple if the key
is absent. -/
def enInsert (headline effective expires warning status_alert descript url : String)
    (st : BState) (a : AreaBlock) : BState :=
  let tag := a.polygon
  let name := a.areaDesc
  let split_tag := splitTag tag
  let id_warning := idWarningOf tag
  if lookupA st.english_alert id_warning = none then
    { st with english_alert := st.english_alert ++
        [(id_warning, ⟨split_tag, name, headline, effective, expires, warning,
          status_alert, id_warning, descript, url⟩)] }
  else st

/-- The body of `for grandchild in root.iter('{}info')` in
`weather_warning2geojson`, for one `info` block: compute `expires` and
`status_alert`, test
`_get_date_format(expires) > now or identifier not in list_id`, append
`lastref` to `list_id`, and run the language-specific area loop. -/
def processInfo (now : DateTime) (identifier lastref url : String)
    (st : BState) (info : InfoBlock) : Except PyErr BState :=
  match get_date_format info.expires with
  | none => .error .valueError
  | some expiresD =>
    let expires := strftime expiresD
    let status_alert := info.status_alert
    match get_date_format expires with
    | none => .error .valueError
    | some reparsed =>
      if now.key < reparsed.key ∨ identifier ∉ st.list_id then
        let st1 : BState := { st with list_id := st.list_id ++ [lastref] }
        if info.language = "fr-CA" then
          let headline := info.headline
          let descript := descProc info.description
          .ok (info.areas.foldl (frInsert headline descript) st1)
        else
          let headline := info.headline
          let descript := descProc info.description
          match get_date_format info.effective with
          | none => .error .valueError
          | some effectiveD =>
            let effective := strftime effectiveD
            let warning := info.warning
            .ok (info.areas.foldl
              (enInsert headline effective expires warning status_alert descript url) st1)
      else .ok st

/-- The whole `for grandchild in root.iter('{}info')` loop. -/
def processInfos (now : DateTime) (identifier lastref url : String) :
    BState → List InfoBlock → Except PyErr BState
  | st, [] => .ok st
  | st, info :: rest =>
    match processInfo now identifier lastref url st info with
    | .ok st' => processInfos now identifier lastref url st' rest
    | .error e => .error e

/-- `for j in english_alert: if _get_date_format(english_alert[j][4]) < now:
english_alert_remove.append(j)` — the keys of expired English records. -/
def computeRemove (now : DateTime) :
    List (String × EnRecord) → List String → Except PyErr (List String)
  | [], acc => .ok acc
  | (j, rec) :: rest, acc =>
    match get_date_format rec.expires with
    | none => .error .valueError
    | some d =>
      if d.key < now.key then computeRemove now rest (acc ++ [j])
      else computeRemove now rest acc

/-- `del d[key]`: `KeyError` when the key is absent. -/
def delKey {β : Type} (m : List (String × β)) (k : String) :
    Except PyErr (List (String × β)) :=
  if (lookupA m k).isSome then .ok (eraseA m k) else .error .keyError

/-- `for key in english_alert_remove: del english_alert[key];
del french_alert[key]`. -/
def applyRemove : List String → List (String × EnRecord) → List (String × FrRecord) →
    Except PyErr (List (String × EnRecord) × List (String × FrRecord))
  | [], en, fr => .ok (en, fr)
  | k :: rest, en, fr =>
    match delKey en k with
    | .error e => .error e
    | .ok en' =>
      match delKey fr k with
      | .error e => .error e
      | .ok fr' => applyRemove rest en' fr'

/-! ### The bilingual feature assembler and polygon builder -/

/-- `properties` of one emitted GeoJSON `Feature`. -/
structure FeatureProps where
  identifier : String
  area : String
  reference : String
  zone : String
  headline : String
  titre : String
  descrip_en : String
  descrip_fr : String
  effective : String
  expires : String
  alert_type : String
  status : String
  url : String
deriving DecidableEq

/-- One emitted `Feature` (`AlertLocation` in the source); `ring` is the
single ring stored as `geometry.coordinates = [no_dup_poly]`. -/
structure Feature where
  props : FeatureProps
  ring : List (List PyNum)
deriving DecidableEq

/-- `list(reversed(range(0, len(split_tag), 2)))`: the even indices below
`n`, walked last-first. -/
def polyIndices (n : Nat) : List Nat :=
  (List.range' 0 ((n + 1) / 2) 2).reverse

/-- One iteration of the pair loop: when more than one token exists, append
`[float(toks[l + 1]), float(toks[l]), 0.0]`; evaluation order (index
`l + 1`, its `float`, index `l`, its `float`) matches Python's. -/
def polyStep (toks : List String) (poly : List (List PyNum)) (l : Nat) :
    Except PyErr (List (List PyNum)) :=
  if toks.length > 1 then
    match toks.get? (l + 1) with
    | none => .error .indexError
    | some a =>
      match pyFloat a with
      | none => .error .valueError
      | some x =>
        match toks.get? l with
        | none => .error .indexError
        | some b =>
          match pyFloat b with
          | none => .error .valueError
          | some y => .ok (poly ++ [[x, y, pyZero]])
  else .ok poly

/-- The full pair loop `for l in list(reversed(range(0, len, 2)))`. -/
def polyLoop (toks : List String) : List Nat → List (List PyNum) →
    Except PyErr (List (List PyNum))
  | [], poly => .ok poly
  | l :: rest, poly =>
    match polyStep toks poly l with
    | .ok p => polyLoop toks rest p
    | .error e => .error e

/-- The ring built from one English record's `split_tag`. -/
def buildPoly (toks : List String) : Except PyErr (List (List PyNum)) :=
  polyLoop toks (polyIndices toks.length) []

/-- `for k in poly: if k not in no_dup_poly: no_dup_poly.append(k)`. -/
def dedupLoop : List (List PyNum) → List (List PyNum) → List (List PyNum)
  | [], acc => acc
  | k :: rest, acc => if k ∈ acc then dedupLoop rest acc else dedupLoop rest (acc ++ [k])

/-- Deduplicate and close: `no_dup_poly.append(poly[-1])`; `poly[-1]` on an
empty `poly` raises `IndexError`. -/
def closeRing (poly : List (List PyNum)) : Except PyErr (List (List PyNum)) :=
  match poly.getLast? with
  | some lastP => .ok (dedupLoop poly [] ++ [lastP])
  | none => .error .indexError

/-- Assemble the `AlertLocation` feature for one English key `num_poly`
with record `rec`: build the ring, then read the paired French record
(`french_alert[num_poly]`, `KeyError` when absent). -/
def buildFeature (identifier : String) (french_alert : List (String × FrRecord))
    (num_poly : String) (rec : EnRecord) : Except PyErr Feature :=
  match buildPoly rec.split_tag with
  | .error e => .error e
  | .ok poly =>
    match closeRing poly with
    | .error e => .error e
    | .ok no_dup_poly =>
      let id_ := rec.id_warning
      match lookupA french_alert num_poly with
      | none => .error .keyError
      | some fr =>
        .ok {
          props := {
            identifier := id_
            area := rec.name
            reference := identifier
            zone := fr.name
            headline := rec.headline
            titre := fr.headline
            descrip_en := rec.descript
            descrip_fr := fr.descript
            effective := rec.effective
            expires := rec.expires
            alert_type := rec.warning
            status := rec.status_alert
            url := rec.url
          }
          ring := no_dup_poly
        }

/-- `for num_poly in english_alert: ... data.append(AlertLocation)`. -/
def buildFeatures (identifier : String) (french_alert : List (String × FrRecord)) :
    List (String × EnRecord) → List Feature → Except PyErr (List Feature)
  | [], data => .ok data
  | (k, rec) :: rest, data =>
    match buildFeature identifier french_alert k rec with
    | .ok f => buildFeatures identifier french_alert rest (data ++ [f])
    | .error e => .error e

/-- `if len(french_alert) == len(english_alert): data = [] ... return data`.
When the lengths differ, `data` is never assigned and the trailing
`return data` raises `UnboundLocalError`. -/
def emitFeatures (identifier : String) (english_alert : List (String × EnRecord))
    (french_alert : List (String × FrRecord)) : Except PyErr (List Feature) :=
  if french_alert.length = english_alert.length then
    buildFeatures identifier french_alert english_alert []
  else .error .unboundLocal

/-- `CapAlertsRealtimeLoader.weather_warning2geojson` on one parsed CAP
document: `now` is the `datetime.utcnow()` captured at the start of the
call, `url` the public URL derived from the file path. -/
def weather_warning2geojson (now : DateTime) (url : String) (doc : CapDocument) :
    Except PyErr (List Feature) :=
  let identifier := doc.identifier
  let lastref := lastRef doc.references
  match processInfos now identifier lastref url ⟨[], [], []⟩ doc.infos with
  | .error e => .error e
  | .ok st =>
    match computeRemove now st.english_alert [] with
    | .error e => .error e
    | .ok english_alert_remove =>
      match applyRemove english_alert_remove st.english_alert st.french_alert with
      | .error e => .error e
      | .ok (english_alert, french_alert) =>
        emitFeatures identifier english_alert french_alert

/-! ### Concrete documents used as inputs for the scenario claims -/

/-- Processing time used by the concrete scenarios: 2024-01-15 12:00:00. -/
def nowT : DateTime := ⟨2024, 1, 15, 12, 0, 0⟩

/-- The C2 scenario: one English `info` and one matching French `info`,
same area polygon `"45.0,-75.0 45.1,-75.0 45.1,-75.1"`, expiry in the
future relative to `nowT`. -/
def docBilingual : CapDocument :=
  { identifier := "urn:oid:ca.2024.01"
    references := "urn:a,urn:b"
    infos := [
      { language := "en-CA"
        headline := "Wind warning"
        description := "Strong winds."
        effective := "2024-01-15T00:00:00Z"
        expires := "2024-01-16T00:00:00Z"
        status_alert := "warning"
        warning := "wind"
        areas := [⟨"45.0,-75.0 45.1,-75.0 45.1,-75.1", "Ottawa"⟩] },
      { language := "fr-CA"
        headline := "Avertissement de vent"
        description := "Vents forts."
        effective := "2024-01-15T00:00:00Z"
        expires := "2024-01-16T00:00:00Z"
        status_alert := "warning"
        warning := "vent"
        areas := [⟨"45.0,-75.0 45.1,-75.0 45.1,-75.1", "Ottawa"⟩] }] }

/-- The ring `weather_warning2geojson` actually builds for the C2 scenario
polygon: reversed pair order `[lon, lat, 0.0]`, then the pre-dedup last
point appended as closure. -/
def ringBilingual : List (List PyNum) :=
  [[⟨-751, 1⟩, ⟨451, 1⟩, ⟨0, 0⟩],
   [⟨-75, 0⟩, ⟨451, 1⟩, ⟨0, 0⟩],
   [⟨-75, 0⟩, ⟨45, 0⟩, ⟨0, 0⟩],
   [⟨-75, 0⟩, ⟨45, 0⟩, ⟨0, 0⟩]]

/-- An English-only document (no French `info`): after filtering the two
mappings have sizes 1 and 0. -/
def docEnglishOnly : CapDocument :=
  { identifier := "urn:oid:ca.2024.02"
    references := "urn:a,urn:b"
    infos := [
      { language := "en-CA"
        headline := "Wind warning"
        description := "Strong winds."
        effective := "2024-01-15T00:00:00Z"
        expires := "2024-01-16T00:00:00Z"
        status_alert := "warning"
        warning := "wind"
        areas := [⟨"45.0,-75.0 45.1,-75.0 45.1,-75.1", "Ottawa"⟩] }] }

/-- A bilingual document whose single polygon string is the lone token
`"45.0"`: `split_tag` has length 1. -/
def docShortPolygon : CapDocument :=
  { identifier := "urn:oid:ca.2024.03"
    references := "urn:a"
    infos := [
      { language := "en-CA"
        headline := "Wind warning"
        description := "Strong winds."
        effective := "2024-01-15T00:00:00Z"
        expires := "2024-01-16T00:00:00Z"
        status_alert := "warning"
        warning := "wind"
        areas := [⟨"45.0", "Spot"⟩] },
      { language := "fr-CA"
        headline := "Avertissement de vent"
        description := "Vents forts."
        effective := "2024-01-15T00:00:00Z"
        expires := "2024-01-16T00:00:00Z"
        status_alert := "warning"
        warning := "vent"
        areas := [⟨"45.0", "Spot"⟩] }] }

/-- An eligible `info` block (future expiry) with no `<area>` children. -/
def infoNoAreas : InfoBlock :=
  { language := "en-CA"
    headline := "Wind warning"
    description := "Strong winds."
    effective := "2024-01-15T00:00:00Z"
    expires := "2024-01-16T00:00:00Z"
    status_alert := "warning"
    warning := "wind"
    areas := [] }

example :
    (weather_warning2geojson nowT "u" docBilingual).map (List.map Feature.ring) =
      .ok [ringBilingual] := by decide

example : weather_warning2geojson nowT "u" docEnglishOnly = .error .unboundLocal := by
  decide

example : weather_warning2geojson nowT "u" docShortPolygon = .error .indexError := by
  decide

/-! ### Lemmas about the date normalizer -/

theorem padNat_length (k n : Nat) : (padNat k n).length = k := by
  induction k generalizing n with
  | zero => rfl
  | succ k ih => simp [padNat, ih]

theorem digitChar_isDigit {m : Nat} (h : m < 10) :
    (Char.ofNat (48 + m)).isDigit = true := by
  interval_cases m <;> decide

theorem digitChar_toNat {m : Nat} (h : m < 10) :
    (Char.ofNat (48 + m)).toNat = 48 + m := by
  interval_cases m <;> decide

theorem padNat_isDigit {k n : Nat} : ∀ c ∈ padNat k n, c.isDigit = true := by
  induction k generalizing n with
  | zero => intro c hc; cases hc
  | succ k ih =>
    intro c hc
    rw [padNat, List.mem_append] at hc
    rcases hc with hc | hc
    · exact ih c hc
    · rw [List.mem_singleton] at hc
      subst hc
      exact digitChar_isDigit (Nat.mod_lt _ (by omega))

theorem foldl_digits_padNat (k : Nat) : ∀ n a : Nat, n < 10 ^ k →
    (padNat k n).foldl (fun a c => a * 10 + (c.toNat - 48)) a = a * 10 ^ k + n := by
  induction k with
  | zero =>
    intro n a h
    interval_cases n
    simp [padNat]
  | succ k ih =>
    intro n a h
    rw [padNat, List.foldl_append, List.foldl_cons, List.foldl_nil]
    have h10 : n / 10 < 10 ^ k := by
      rw [pow_succ] at h
      omega
    rw [ih (n / 10) a h10, digitChar_toNat (Nat.mod_lt _ (by omega))]
    have hmod := Nat.div_add_mod n 10
    have h48 : 48 + n % 10 - 48 = n % 10 := by omega
    rw [h48, pow_succ]
    calc (a * 10 ^ k + n / 10) * 10 + n % 10
        = a * (10 ^ k * 10) + (10 * (n / 10) + n % 10) := by ring
      _ = a * (10 ^ k * 10) + n := by rw [hmod]

theorem digitsToNat_padNat {k n : Nat} (h : n < 10 ^ k) :
    digitsToNat (padNat k n) = n := by
  have := foldl_digits_padNat k n 0 h
  simpa [digitsToNat] using this

/-- The character class kept by the strip loop of `_get_date_format`. -/
def stripPred (c : Char) : Bool :=
  decide (¬ (c = 'T' ∨ c = '-' ∨ c = ':'))

theorem replStep_eq (s : List Char) (c : Char) :
    replStep s c = s.filter (fun a => decide (a ≠ c)) := by
  unfold replStep
  split
  · rfl
  · next h =>
    symm
    apply List.filter_eq_self.mpr
    intro a ha
    simp only [decide_eq_true_eq]
    rintro rfl
    exact h ha

theorem strip_eq_filter (s : List Char) :
    ['T', '-', ':'].foldl replStep s = s.filter stripPred := by
  simp only [List.foldl_cons, List.foldl_nil, replStep_eq]
  rw [List.filter_filter, List.filter_filter]
  apply List.filter_congr
  intro a _
  by_cases h1 : a = 'T' <;> by_cases h2 : a = '-' <;> by_cases h3 : a = ':' <;>
    simp [stripPred, h1, h2, h3]

theorem stripPred_of_digit {c : Char} (h : c.isDigit = true) : stripPred c = true := by
  unfold stripPred
  rw [decide_eq_true_eq]
  intro hor
  rcases hor with rfl | rfl | rfl <;> exact absurd h (by decide)

theorem filter_padNat (k n : Nat) : (padNat k n).filter stripPred = padNat k n :=
  List.filter_eq_self.mpr fun c hc => stripPred_of_digit (padNat_isDigit c hc)

/-- The 14 digit characters of the canonical output format. -/
def dateDigits (d : DateTime) : List Char :=
  padNat 4 d.year ++ (padNat 2 d.month ++ (padNat 2 d.day ++ (padNat 2 d.hour ++
    (padNat 2 d.minute ++ padNat 2 d.second))))

theorem dateDigits_length (d : DateTime) : (dateDigits d).length = 14 := by
  simp [dateDigits, padNat_length]

theorem strip_strftime (d : DateTime) :
    ['T', '-', ':'].foldl replStep (strftime d).data = dateDigits d ++ ['Z'] := by
  rw [strip_eq_filter]
  have hdata : (strftime d).data =
      padNat 4 d.year ++ ['-'] ++ padNat 2 d.month ++ ['-'] ++ padNat 2 d.day
        ++ ['T'] ++ padNat 2 d.hour ++ [':'] ++ padNat 2 d.minute ++ [':']
        ++ padNat 2 d.second ++ ['Z'] := rfl
  have hT : stripPred 'T' = false := by decide
  have hD : stripPred '-' = false := by decide
  have hC : stripPred ':' = false := by decide
  have hZ : stripPred 'Z' = true := by decide
  rw [hdata]
  simp [List.filter_append, filter_padNat, hT, hD, hC, hZ, dateDigits,
    List.append_assoc]

theorem daysInMonth_le_31 (y m : Nat) : daysInMonth y m ≤ 31 := by
  unfold daysInMonth
  split
  · split <;> omega
  · split <;> omega

theorem parse14_dateDigits {d : DateTime} (h : validDT d) :
    parse14 (dateDigits d) = some d := by
  obtain ⟨h1, h2, h3, h4, h5, h6, h7, h8, h9⟩ := h
  have hall : (dateDigits d).all Char.isDigit = true := by
    rw [List.all_eq_true]
    intro c hc
    simp only [dateDigits, List.mem_append] at hc
    rcases hc with hc | hc | hc | hc | hc | hc <;> exact padNat_isDigit c hc
  rw [parse14, if_pos ⟨dateDigits_length d, hall⟩]
  have e1 : (dateDigits d).take 4 = padNat 4 d.year :=
    List.take_left' (padNat_length 4 d.year)
  have r1 : (dateDigits d).drop 4 = padNat 2 d.month ++ (padNat 2 d.day ++
      (padNat 2 d.hour ++ (padNat 2 d.minute ++ padNat 2 d.second))) :=
    List.drop_left' (padNat_length 4 d.year)
  have e2 : ((dateDigits d).drop 4).take 2 = padNat 2 d.month := by
    rw [r1]; exact List.take_left' (padNat_length 2 d.month)
  have r2 : (dateDigits d).drop 6 = padNat 2 d.day ++
      (padNat 2 d.hour ++ (padNat 2 d.minute ++ padNat 2 d.second)) := by
    have : (dateDigits d).drop 6 = ((dateDigits d).drop 4).drop 2 := by
      rw [List.drop_drop]
    rw [this, r1]
    exact List.drop_left' (padNat_length 2 d.month)
  have e3 : ((dateDigits d).drop 6).take 2 = padNat 2 d.day := by
    rw [r2]; exact List.take_left' (padNat_length 2 d.day)
  have r3 : (dateDigits d).drop 8 = padNat 2 d.hour ++
      (padNat 2 d.minute ++ padNat 2 d.second) := by
    have : (dateDigits d).drop 8 = ((dateDigits d).drop 6).drop 2 := by
      rw [List.drop_drop]
    rw [this, r2]
    exact List.drop_left' (padNat_length 2 d.day)
  have e4 : ((dateDigits d).drop 8).take 2 = padNat 2 d.hour := by
    rw [r3]; exact List.take_left' (padNat_length 2 d.hour)
  have r4 : (dateDigits d).drop 10 = padNat 2 d.minute ++ padNat 2 d.second := by
    have : (dateDigits d).drop 10 = ((dateDigits d).drop 8).drop 2 := by
      rw [List.drop_drop]
    rw [this, r3]
    exact List.drop_left' (padNat_length 2 d.hour)
  have e5 : ((dateDigits d).drop 10).take 2 = padNat 2 d.minute := by
    rw [r4]; exact List.take_left' (padNat_length 2 d.minute)
  have r5 : (dateDigits d).drop 12 = padNat 2 d.second := by
    have : (dateDigits d).drop 12 = ((dateDigits d).drop 10).drop 2 := by
      rw [List.drop_drop]
    rw [this, r4]
    exact List.drop_left' (padNat_length 2 d.minute)
  have e6 : ((dateDigits d).drop 12).take 2 = padNat 2 d.second := by
    rw [r5, List.take_of_length_le (by rw [padNat_length])]
  have hday : d.day < 100 :=
    lt_of_le_of_lt h6 (lt_of_le_of_lt (daysInMonth_le_31 d.year d.month) (by omega))
  simp only [e1, e2, e3, e4, e5, e6]
  rw [digitsToNat_padNat (by omega : d.year < 10 ^ 4),
    digitsToNat_padNat (by omega : d.month < 10 ^ 2),
    digitsToNat_padNat (by omega : d.day < 10 ^ 2),
    digitsToNat_padNat (by omega : d.hour < 10 ^ 2),
    digitsToNat_padNat (by omega : d.minute < 10 ^ 2),
    digitsToNat_padNat (by omega : d.second < 10 ^ 2)]
  rw [if_pos ⟨h1, h2, h3, h4, h5, h6, h7, h8, h9⟩]

/-- Format-then-parse round trip: `_get_date_format` applied to the
`strftime` rendering of a valid instant recovers the instant. -/
theorem get_date_format_strftime {d : DateTime} (h : validDT d) :
    get_date_format (strftime d) = some d := by
  rw [get_date_format, strip_strftime]
  have htake : (dateDigits d ++ ['Z']).take 14 = dateDigits d :=
    List.take_left' (dateDigits_length d)
  rw [htake]
  exact parse14_dateDigits h

theorem parse14_valid {s : List Char} {d : DateTime} (h : parse14 s = some d) :
    validDT d := by
  unfold parse14 at h
  split at h
  · dsimp only at h
    split at h
    · next hok =>
      injection h with h'
      subst h'
      exact hok
    · cases h
  · cases h

theorem get_date_format_valid {s : String} {d : DateTime}
    (h : get_date_format s = some d) : validDT d := by
  unfold get_date_format at h
  exact parse14_valid h

/-! ### Lemmas about the ordered association lists -/

theorem lookupA_none_iff {β : Type} : ∀ (m : List (String × β)) (k : String),
    lookupA m k = none ↔ k ∉ keysA m := by
  intro m k
  induction m with
  | nil => simp [lookupA, keysA]
  | cons p t ih =>
    obtain ⟨k', v⟩ := p
    simp only [keysA, List.map_cons, List.mem_cons]
    rw [lookupA]
    split
    · next heq => subst heq; simp
    · next hne =>
      rw [keysA] at ih
      rw [ih]
      constructor
      · intro hn hc
        rcases hc with hc | hc
        · exact hne hc.symm
        · exact hn hc
      · intro hn hc
        exact hn (Or.inr hc)

theorem lookupA_append_some {β : Type} {k : String} {v : β} :
    ∀ {m : List (String × β)}, lookupA m k = some v →
    ∀ m', lookupA (m ++ m') k = some v := by
  intro m
  induction m with
  | nil => intro h; cases h
  | cons p t ih =>
    intro h m'
    obtain ⟨k', w⟩ := p
    rw [List.cons_append, lookupA]
    rw [lookupA] at h
    split at h
    · next heq => rw [if_pos heq]; exact h
    · next hne => rw [if_neg hne]; exact ih h m'

theorem lookupA_append_new {β : Type} {k : String} (v : β) :
    ∀ {m : List (String × β)}, lookupA m k = none →
    lookupA (m ++ [(k, v)]) k = some v := by
  intro m
  induction m with
  | nil => intro _; simp [lookupA]
  | cons p t ih =>
    intro h
    obtain ⟨k', w⟩ := p
    rw [lookupA] at h
    rw [List.cons_append, lookupA]
    split at h
    · cases h
    · next hne => rw [if_neg hne]; exact ih h

theorem keysA_append {β : Type} (m m' : List (String × β)) :
    keysA (m ++ m') = keysA m ++ keysA m' := by
  simp [keysA]

theorem nodup_append_singleton {α : Type} {l : List α} {x : α}
    (h1 : l.Nodup) (h2 : x ∉ l) : (l ++ [x]).Nodup := by
  induction l with
  | nil => simp
  | cons a t ih =>
    rw [List.cons_append, List.nodup_cons]
    rw [List.nodup_cons] at h1
    have hne : x ≠ a := fun hx => h2 (hx ▸ List.mem_cons_self a t)
    refine ⟨?_, ih h1.2 (fun hx => h2 (List.mem_cons_of_mem a hx))⟩
    intro hmem
    rcases List.mem_append.mp hmem with hm | hm
    · exact h1.1 hm
    · rw [List.mem_singleton] at hm
      exact hne hm.symm

theorem eraseA_sublist {β : Type} : ∀ (m : List (String × β)) (k : String),
    List.Sublist (eraseA m k) m := by
  intro m k
  induction m with
  | nil => exact List.Sublist.refl _
  | cons p t ih =>
    obtain ⟨k', v⟩ := p
    rw [eraseA]
    split
    · exact List.sublist_cons_self _ _
    · exact ih.cons₂ _

theorem eraseA_subset {β : Type} {m : List (String × β)} {k : String} :
    ∀ x ∈ eraseA m k, x ∈ m :=
  fun _ hx => (eraseA_sublist m k).subset hx

theorem keysA_eraseA_nodup {β : Type} {m : List (String × β)} {k : String}
    (h : (keysA m).Nodup) : (keysA (eraseA m k)).Nodup :=
  (((eraseA_sublist m k).map Prod.fst).nodup h)

theorem not_mem_keysA_eraseA {β : Type} (k : String) : ∀ (m : List (String × β)),
    (keysA m).Nodup → k ∉ keysA (eraseA m k) := by
  intro m
  induction m with
  | nil => intro _; simp [eraseA, keysA]
  | cons p t ih =>
    intro h
    obtain ⟨k', v⟩ := p
    rw [keysA, List.map_cons, List.nodup_cons] at h
    rw [eraseA]
    split
    · next heq => subst heq; exact h.1
    · next hne =>
      rw [keysA, List.map_cons, List.mem_cons]
      rintro (rfl | hmem)
      · exact hne rfl
      · exact ih h.2 hmem

theorem mem_keysA_of_mem {β : Type} {m : List (String × β)} {p : String × β}
    (h : p ∈ m) : p.1 ∈ keysA m :=
  List.mem_map.mpr ⟨p, h, rfl⟩

theorem not_mem_keysA_mono {β : Type} {m m' : List (String × β)} {k : String}
    (hsub : ∀ x ∈ m', x ∈ m) (h : k ∉ keysA m) : k ∉ keysA m' := by
  intro hk
  obtain ⟨p, hp, rfl⟩ := List.mem_map.mp hk
  exact h (mem_keysA_of_mem (hsub p hp))

/-! ### Lemmas about the alert-record builder -/

theorem frInsert_english (headline descript : String) (st : BState) (a : AreaBlock) :
    (frInsert headline descript st a).english_alert = st.english_alert := by
  unfold frInsert
  dsimp only
  split <;> rfl

theorem enInsert_french (headline effective expires warning status_alert descript
    url : String) (st : BState) (a : AreaBlock) :
    (enInsert headline effective expires warning status_alert descript url st a).french_alert
      = st.french_alert := by
  unfold enInsert
  dsimp only
  split <;> rfl

theorem frInsert_preserve {headline descript : String} {st : BState} {a : AreaBlock}
    {k : String} {v : FrRecord} (h : lookupA st.french_alert k = some v) :
    lookupA (frInsert headline descript st a).french_alert k = some v := by
  unfold frInsert
  dsimp only
  split
  · exact lookupA_append_some h _
  · exact h

theorem enInsert_preserve {headline effective expires warning status_alert descript
    url : String} {st : BState} {a : AreaBlock} {k : String} {v : EnRecord}
    (h : lookupA st.english_alert k = some v) :
    lookupA (enInsert headline effective expires warning status_alert descript url
      st a).english_alert k = some v := by
  unfold enInsert
  dsimp only
  split
  · exact lookupA_append_some h _
  · exact h

theorem foldl_frInsert_english (headline descript : String) :
    ∀ (areas : List AreaBlock) (st : BState),
    ((areas.foldl (frInsert headline descript) st)).english_alert = st.english_alert := by
  intro areas
  induction areas with
  | nil => intro st; rfl
  | cons a rest ih =>
    intro st
    rw [List.foldl_cons, ih, frInsert_english]

theorem foldl_enInsert_french (headline effective expires warning status_alert descript
    url : String) : ∀ (areas : List AreaBlock) (st : BState),
    ((areas.foldl (enInsert headline effective expires warning status_alert descript url)
      st)).french_alert = st.french_alert := by
  intro areas
  induction areas with
  | nil => intro st; rfl
  | cons a rest ih =>
    intro st
    rw [List.foldl_cons, ih, enInsert_french]

theorem foldl_frInsert_preserve {headline descript : String} {k : String} {v : FrRecord} :
    ∀ {areas : List AreaBlock} {st : BState},
    lookupA st.french_alert k = some v →
    lookupA ((areas.foldl (frInsert headline descript) st)).french_alert k = some v := by
  intro areas
  induction areas with
  | nil => intro st h; exact h
  | cons a rest ih =>
    intro st h
    exact ih (frInsert_preserve h)

theorem foldl_enInsert_preserve {headline effective expires warning status_alert descript
    url : String} {k : String} {v : EnRecord} :
    ∀ {areas : List AreaBlock} {st : BState},
    lookupA st.english_alert k = some v →
    lookupA ((areas.foldl (enInsert headline effective expires warning status_alert
      descript url) st)).english_alert k = some v := by
  intro areas
  induction areas with
  | nil => intro st h; exact h
  | cons a rest ih =>
    intro st h
    exact ih (enInsert_preserve h)

theorem frInsert_nodup {headline descript : String} {st : BState} {a : AreaBlock}
    (h : (keysA st.french_alert).Nodup) :
    (keysA (frInsert headline descript st a).french_alert).Nodup := by
  unfold frInsert
  dsimp only
  split
  · next hnone =>
    rw [keysA_append]
    exact nodup_append_singleton h ((lookupA_none_iff _ _).mp hnone)
  · exact h

theorem enInsert_nodup {headline effective expires warning status_alert descript
    url : String} {st : BState} {a : AreaBlock}
    (h : (keysA st.english_alert).Nodup) :
    (keysA (enInsert headline effective expires warning status_alert descript url
      st a).english_alert).Nodup := by
  unfold enInsert
  dsimp only
  split
  · next hnone =>
    rw [keysA_append]
    exact nodup_append_singleton h ((lookupA_none_iff _ _).mp hnone)
  · exact h

theorem foldl_frInsert_nodup {headline descript : String} :
    ∀ {areas : List AreaBlock} {st : BState},
    (keysA st.french_alert).Nodup →
    (keysA ((areas.foldl (frInsert headline descript) st)).french_alert).Nodup := by
  intro areas
  induction areas with
  | nil => intro st h; exact h
  | cons a rest ih =>
    intro st h
    exact ih (frInsert_nodup h)

theorem foldl_enInsert_nodup {headline effective expires warning status_alert descript
    url : String} : ∀ {areas : List AreaBlock} {st : BState},
    (keysA st.english_alert).Nodup →
    (keysA ((areas.foldl (enInsert headline effective expires warning status_alert
      descript url) st)).english_alert).Nodup := by
  intro areas
  induction areas with
  | nil => intro st h; exact h
  | cons a rest ih =>
    intro st h
    exact ih (enInsert_nodup h)

theorem processInfo_preserve {now : DateTime} {identifier lastref url : String}
    {st : BState} {info : InfoBlock} {st' : BState}
    (h : processInfo now identifier lastref url st info = .ok st') :
    (∀ k v, lookupA st.english_alert k = some v → lookupA st'.english_alert k = some v)
    ∧ (∀ k v, lookupA st.french_alert k = some v → lookupA st'.french_alert k = some v) := by
  unfold processInfo at h
  dsimp only at h
  split at h
  · injection h
  split at h
  · injection h
  split at h
  · split at h
    · injection h with h'
      subst h'
      constructor
      · intro k v hv
        rw [foldl_frInsert_english]
        exact hv
      · intro k v hv
        exact foldl_frInsert_preserve hv
    · split at h
      · injection h
      · injection h with h'
        subst h'
        constructor
        · intro k v hv
          exact foldl_enInsert_preserve hv
        · intro k v hv
          rw [foldl_enInsert_french]
          exact hv
  · injection h with h'
    subst h'
    exact ⟨fun _ _ hv => hv, fun _ _ hv => hv⟩

theorem processInfos_preserve {now : DateTime} {identifier lastref url : String} :
    ∀ {infos : List InfoBlock} {st st' : BState},
    processInfos now identifier lastref url st infos = .ok st' →
    (∀ k v, lookupA st.english_alert k = some v → lookupA st'.english_alert k = some v)
    ∧ (∀ k v, lookupA st.french_alert k = some v → lookupA st'.french_alert k = some v) := by
  intro infos
  induction infos with
  | nil =>
    intro st st' h
    injection h with h'
    subst h'
    exact ⟨fun _ _ hv => hv, fun _ _ hv => hv⟩
  | cons info rest ih =>
    intro st st' h
    rw [processInfos] at h
    split at h
    · next st1 h1 =>
      obtain ⟨he, hf⟩ := processInfo_preserve h1
      obtain ⟨he', hf'⟩ := ih h
      exact ⟨fun k v hv => he' k v (he k v hv), fun k v hv => hf' k v (hf k v hv)⟩
    · injection h

theorem processInfo_nodup {now : DateTime} {identifier lastref url : String}
    {st : BState} {info : InfoBlock} {st' : BState}
    (h : processInfo now identifier lastref url st info = .ok st')
    (h1 : (keysA st.english_alert).Nodup) (h2 : (keysA st.french_alert).Nodup) :
    (keysA st'.english_alert).Nodup ∧ (keysA st'.french_alert).Nodup := by
  unfold processInfo at h
  dsimp only at h
  split at h
  · injection h
  split at h
  · injection h
  split at h
  · split at h
    · injection h with h'
      subst h'
      refine ⟨?_, foldl_frInsert_nodup h2⟩
      rw [foldl_frInsert_english]
      exact h1
    · split at h
      · injection h
      · injection h with h'
        subst h'
        refine ⟨foldl_enInsert_nodup h1, ?_⟩
        rw [foldl_enInsert_french]
        exact h2
  · injection h with h'
    subst h'
    exact ⟨h1, h2⟩

theorem processInfos_nodup {now : DateTime} {identifier lastref url : String} :
    ∀ {infos : List InfoBlock} {st st' : BState},
    processInfos now identifier lastref url st infos = .ok st' →
    (keysA st.english_alert).Nodup → (keysA st.french_alert).Nodup →
    (keysA st'.english_alert).Nodup ∧ (keysA st'.french_alert).Nodup := by
  intro infos
  induction infos with
  | nil =>
    intro st st' h h1 h2
    injection h with h'
    subst h'
    exact ⟨h1, h2⟩
  | cons info rest ih =>
    intro st st' h h1 h2
    rw [processInfos] at h
    split at h
    · next st1 h1' =>
      obtain ⟨he, hf⟩ := processInfo_nodup h1' h1 h2
      exact ih h he hf
    · injection h

/-! ### Lemmas about the expiry filter -/

theorem computeRemove_spec {now : DateTime} :
    ∀ (entries : List (String × EnRecord)) (acc rks : List String),
    computeRemove now entries acc = .ok rks →
    (∀ k rec, (k, rec) ∈ entries → ∃ d, get_date_format rec.expires = some d ∧
      (d.key < now.key → k ∈ rks)) ∧ (∀ k ∈ acc, k ∈ rks) := by
  intro entries
  induction entries with
  | nil =>
    intro acc rks h
    injection h with h'
    subst h'
    exact ⟨by simp, fun _ hk => hk⟩
  | cons e rest ih =>
    intro acc rks h
    obtain ⟨j, rec⟩ := e
    rw [computeRemove] at h
    split at h
    · injection h
    next d hd =>
    split at h
    · next hlt =>
      obtain ⟨hmem, hacc⟩ := ih _ _ h
      refine ⟨?_, fun k hk => hacc k (List.mem_append.mpr (Or.inl hk))⟩
      intro k r hm
      rcases List.mem_cons.mp hm with heq | hm
      · obtain ⟨rfl, rfl⟩ := Prod.mk.injEq .. ▸ heq
        exact ⟨d, hd, fun _ => hacc k (List.mem_append.mpr (Or.inr (by simp)))⟩
      · exact hmem k r hm
    · next hge =>
      obtain ⟨hmem, hacc⟩ := ih _ _ h
      refine ⟨?_, hacc⟩
      intro k r hm
      rcases List.mem_cons.mp hm with heq | hm
      · obtain ⟨rfl, rfl⟩ := Prod.mk.injEq .. ▸ heq
        exact ⟨d, hd, fun hlt => absurd hlt hge⟩
      · exact hmem k r hm

theorem delKey_ok {β : Type} {m m' : List (String × β)} {k : String}
    (h : delKey m k = .ok m') : m' = eraseA m k := by
  unfold delKey at h
  split at h
  · injection h with h'
    exact h'.symm
  · injection h

theorem applyRemove_spec :
    ∀ (ks : List String) (en : List (String × EnRecord)) (fr : List (String × FrRecord))
      (en' : List (String × EnRecord)) (fr' : List (String × FrRecord)),
    (keysA en).Nodup → (keysA fr).Nodup →
    applyRemove ks en fr = .ok (en', fr') →
    (∀ x ∈ en', x ∈ en) ∧ (∀ x ∈ fr', x ∈ fr) ∧
      (∀ k ∈ ks, k ∉ keysA en' ∧ k ∉ keysA fr') := by
  intro ks
  induction ks with
  | nil =>
    intro en fr en' fr' _ _ h
    injection h with h'
    obtain ⟨rfl, rfl⟩ := Prod.mk.injEq .. ▸ h'
    exact ⟨fun _ hx => hx, fun _ hx => hx, by simp⟩
  | cons k rest ih =>
    intro en fr en' fr' hn1 hn2 h
    rw [applyRemove] at h
    split at h
    · injection h
    next en1 he1 =>
    split at h
    · injection h
    next fr1 hf1 =>
    have hen1 : en1 = eraseA en k := delKey_ok he1
    have hfr1 : fr1 = eraseA fr k := delKey_ok hf1
    subst hen1 hfr1
    obtain ⟨hsub1, hsub2, hrest⟩ :=
      ih _ _ _ _ (keysA_eraseA_nodup hn1) (keysA_eraseA_nodup hn2) h
    refine ⟨fun x hx => eraseA_subset x (hsub1 x hx),
            fun x hx => eraseA_subset x (hsub2 x hx), ?_⟩
    intro j hj
    rcases List.mem_cons.mp hj with rfl | hj
    · exact ⟨not_mem_keysA_mono hsub1 (not_mem_keysA_eraseA j en hn1),
             not_mem_keysA_mono hsub2 (not_mem_keysA_eraseA j fr hn2)⟩
    · exact hrest j hj

/-! ### Lemmas about the feature assembler -/

theorem buildFeature_expires {identifier : String}
    {french_alert : List (String × FrRecord)} {k : String} {rec : EnRecord} {f : Feature}
    (h : buildFeature identifier french_alert k rec = .ok f) :
    f.props.expires = rec.expires := by
  unfold buildFeature at h
  split at h
  · injection h
  split at h
  · injection h
  dsimp only at h
  split at h
  · injection h
  · injection h with h'
    subst h'
    rfl

theorem buildFeatures_mem :
    ∀ (entries : List (String × EnRecord)) (identifier : String)
      (fr : List (String × FrRecord)) (init out : List Feature),
    buildFeatures identifier fr entries init = .ok out →
    ∀ f ∈ out, f ∈ init ∨
      ∃ k rec, (k, rec) ∈ entries ∧ buildFeature identifier fr k rec = .ok f := by
  intro entries
  induction entries with
  | nil =>
    intro identifier fr init out h f hf
    injection h with h'
    subst h'
    exact Or.inl hf
  | cons e rest ih =>
    intro identifier fr init out h f hf
    obtain ⟨k, rec⟩ := e
    rw [buildFeatures] at h
    split at h
    · next f' hbf =>
      rcases ih identifier fr (init ++ [f']) out h f hf with hin | ⟨k', rec', hm, hb⟩
      · rcases List.mem_append.mp hin with hin | hin
        · exact Or.inl hin
        · rw [List.mem_singleton] at hin
          subst hin
          exact Or.inr ⟨k, rec, List.mem_cons_self _ _, hbf⟩
      · exact Or.inr ⟨k', rec', List.mem_cons_of_mem _ hm, hb⟩
    · injection h

theorem emitFeatures_ok {identifier : String} {en : List (String × EnRecord)}
    {fr : List (String × FrRecord)} {out : List Feature}
    (h : emitFeatures identifier en fr = .ok out) :
    fr.length = en.length ∧ buildFeatures identifier fr en [] = .ok out := by
  unfold emitFeatures at h
  split at h
  · next hlen => exact ⟨hlen, h⟩
  · injection h

/-! ### Lemmas about the polygon pair loop -/

theorem polyIndices_mem {n l : Nat} (h : l ∈ polyIndices n) :
    ∃ i, i < (n + 1) / 2 ∧ l = 2 * i := by
  unfold polyIndices at h
  rw [List.mem_reverse, List.mem_range'] at h
  obtain ⟨i, hi, rfl⟩ := h
  exact ⟨i, hi, by omega⟩

theorem polyIndices_length (n : Nat) : (polyIndices n).length = (n + 1) / 2 := by
  unfold polyIndices
  rw [List.length_reverse, List.length_range']

theorem polyLoop_ok {toks : List String} (htl : toks.length > 1)
    (hfl : ∀ t ∈ toks, (pyFloat t).isSome) :
    ∀ (idxs : List Nat) (acc : List (List PyNum)),
    (∀ l ∈ idxs, l + 1 < toks.length) →
    ∃ out, polyLoop toks idxs acc = .ok out ∧ out.length = acc.length + idxs.length := by
  intro idxs
  induction idxs with
  | nil =>
    intro acc _
    exact ⟨acc, rfl, by simp⟩
  | cons l rest ih =>
    intro acc h
    have hl1 : l + 1 < toks.length := h l (List.mem_cons_self _ _)
    have hl0 : l < toks.length := by omega
    obtain ⟨a, ha⟩ : ∃ a, toks.get? (l + 1) = some a := ⟨_, List.get?_eq_get hl1⟩
    obtain ⟨b, hb⟩ : ∃ b, toks.get? l = some b := ⟨_, List.get?_eq_get hl0⟩
    obtain ⟨x, hx⟩ := Option.isSome_iff_exists.mp (hfl a (List.get?_mem ha))
    obtain ⟨y, hy⟩ := Option.isSome_iff_exists.mp (hfl b (List.get?_mem hb))
    have hstep : polyStep toks acc l = .ok (acc ++ [[x, y, pyZero]]) := by
      simp only [polyStep, if_pos htl, ha, hx, hb, hy]
    obtain ⟨out, hout, hlen⟩ :=
      ih (acc ++ [[x, y, pyZero]]) (fun j hj => h j (List.mem_cons_of_mem _ hj))
    refine ⟨out, ?_, ?_⟩
    · rw [polyLoop, hstep]
      exact hout
    · rw [hlen]
      simp
      omega

theorem buildPoly_even {toks : List String} {n : Nat} (hlen : toks.length = 2 * n)
    (hn : 1 ≤ n) (hfl : ∀ t ∈ toks, (pyFloat t).isSome) :
    ∃ poly, buildPoly toks = .ok poly ∧ poly.length = n := by
  have hidx : ∀ l ∈ polyIndices toks.length, l + 1 < toks.length := by
    intro l hl
    obtain ⟨i, hi, rfl⟩ := polyIndices_mem hl
    rw [hlen] at hi ⊢
    omega
  obtain ⟨out, hout, hl⟩ := polyLoop_ok (by omega) hfl (polyIndices toks.length) [] hidx
  refine ⟨out, hout, ?_⟩
  rw [hl, polyIndices_length, hlen]
  simp only [List.length_nil]
  omega

theorem buildPoly_odd {toks : List String} (hodd : toks.length % 2 = 1)
    (h3 : 3 ≤ toks.length) : buildPoly toks = .error .indexError := by
  obtain ⟨k, hk⟩ : ∃ k, toks.length = 2 * k + 1 := ⟨toks.length / 2, by omega⟩
  have hk1 : 1 ≤ k := by omega
  unfold buildPoly
  have hdiv : (toks.length + 1) / 2 = k + 1 := by omega
  have hpi : polyIndices toks.length = 2 * k :: (List.range' 0 k 2).reverse := by
    unfold polyIndices
    rw [hdiv, List.range'_concat, List.reverse_append]
    simp
  have hget : toks.get? (2 * k + 1) = none := by
    rw [List.get?_eq_none]
    omega
  have hstep : polyStep toks [] (2 * k) = .error .indexError := by
    rw [polyStep, if_pos (by omega), hget]
  rw [hpi, polyLoop, hstep]

/-! ### The claims -/

/-- **C7**: the AreaKey derivation equals `"a-"` followed by the first 25
characters of the raw polygon string after removing every occurrence of
`'-'`, `','`, `' '` and `'.'`; two `AreaBlock`s with identical raw polygon
strings get identical keys, and two polygon strings whose cleaned forms
differ within the first 25 characters get different keys. -/
theorem claim_c7_area_key :
    (∀ tag : String, idWarningOf tag =
      "a-" ++ String.mk ((tag.data.filter
        (fun c => decide (c ∉ (['-', ',', ' ', '.'] : List Char)))).take 25))
  ∧ (∀ s t : String, s = t → idWarningOf s = idWarningOf t)
  ∧ (∀ s t : String, (reSubClean s.data).take 25 ≠ (reSubClean t.data).take 25 →
      idWarningOf s ≠ idWarningOf t) := by
  refine ⟨?_, ?_, ?_⟩
  · intro tag
    unfold idWarningOf reSubClean
    refine congrArg (fun l : List Char => "a-" ++ String.mk (l.take 25)) ?_
    apply List.filter_congr
    intro a _
    rw [decide_eq_decide]
    simp
  · intro s t h
    exact congrArg idWarningOf h
  · intro s t hne hkey
    apply hne
    unfold idWarningOf at hkey
    have h := congrArg String.data hkey
    rw [String.data_append, String.data_append] at h
    exact List.append_cancel_left h

/-- **C7** witness: the three parts applied to concrete polygon strings. -/
theorem claim_c7_witness :
    idWarningOf "45.0" = idWarningOf "45.0"
    ∧ idWarningOf "45.0" ≠ idWarningOf "46.0" :=
  ⟨claim_c7_area_key.2.1 "45.0" "45.0" rfl,
   claim_c7_area_key.2.2 "45.0" "46.0" (by decide)⟩

/-- **C8**: `_get_date_format` strips every occurrence of `'T'`, `'-'` and
`':'`, truncates to the first 14 characters and parses the result as
`YYYYMMDDHHMMSS` (no timezone conversion); and for every valid instant the
format-then-parse round trip through `strftime`'s `YYYY-MM-DDTHH:MM:SSZ`
output recovers the instant. -/
theorem claim_c8_date_normalizer :
    (∀ s : String, get_date_format s =
      parse14 ((s.data.filter
        (fun c => decide (c ∉ (['T', '-', ':'] : List Char)))).take 14))
  ∧ (∀ d : DateTime, validDT d → get_date_format (strftime d) = some d) := by
  constructor
  · intro s
    rw [get_date_format, strip_eq_filter]
    refine congrArg (fun l : List Char => parse14 (l.take 14)) ?_
    apply List.filter_congr
    intro a _
    unfold stripPred
    rw [decide_eq_decide]
    simp
  · intro d h
    exact get_date_format_strftime h

/-- **C8** witness: the round trip at a concrete instant. -/
theorem claim_c8_witness :
    get_date_format (strftime ⟨2024, 1, 16, 0, 0, 0⟩) = some ⟨2024, 1, 16, 0, 0, 0⟩ :=
  claim_c8_date_normalizer.2 ⟨2024, 1, 16, 0, 0, 0⟩ (by decide)

/-- **C9**: `_get_element` is total and returns (1) the attribute value
when an attribute name is given and the node resolves, (2) the node's text
when no attribute is requested and the text is non-empty, (3) `None` when
no attribute is requested and the text is absent or empty, and (4) `None`
when the node does not resolve at all. -/
theorem claim_c9_get_element (node : XNode) (path : String) (attrib : Option String) :
    (∀ a v, attrib = some a → node.find path = some v →
      get_element node path attrib = attribGet v a)
  ∧ (∀ v t, attrib = none → node.find path = some v → v.text = some t → t ≠ "" →
      get_element node path attrib = some t)
  ∧ (∀ v, attrib = none → node.find path = some v →
      (v.text = none ∨ v.text = some "") → get_element node path attrib = none)
  ∧ (node.find path = none → get_element node path attrib = none) := by
  refine ⟨?_, ?_, ?_, ?_⟩
  · intro a v ha hv
    simp only [get_element, ha, hv]
  · intro v t ha hv ht hne
    simp only [get_element, ha, hv, ht]
    rw [if_neg hne]
  · intro v ha hv htext
    rcases htext with ht | ht
    · simp only [get_element, ha, hv, ht]
    · simp [get_element, ha, hv, ht]
  · intro h
    cases attrib <;> simp only [get_element, h]

/-- A concrete element tree for the C9 witness. -/
def nodeW : XNode :=
  .node "alert" [] none [.node "info" [("lang", "fr-CA")] (some "txt") []]

/-- **C9** witness: the attribute branch applied to a concrete tree. -/
theorem claim_c9_witness :
    get_element nodeW "info" (some "lang")
      = attribGet (XNode.node "info" [("lang", "fr-CA")] (some "txt") []) "lang" :=
  (claim_c9_get_element nodeW "info" (some "lang")).1 "lang"
    (XNode.node "info" [("lang", "fr-CA")] (some "txt") []) rfl rfl

/-- **C10**: the pair loop is total exactly on even-length token lists —
for a list of length `2 n` (`n ≥ 1`, all tokens parseable) every walked
index `l` satisfies `l + 1 < length` and the loop emits exactly `n`
`[lon, lat, 0.0]` triples, whereas an odd-length list of length ≥ 3 makes
the first walked index access position `l + 1 = length`, out of bounds
(`IndexError`). -/
theorem claim_c10_pair_loop :
    (∀ (toks : List String) (n : Nat), toks.length = 2 * n → 1 ≤ n →
      (∀ t ∈ toks, (pyFloat t).isSome) →
      (∀ l ∈ polyIndices toks.length, l + 1 < toks.length)
      ∧ ∃ poly, buildPoly toks = .ok poly ∧ poly.length = n)
  ∧ (∀ toks : List String, toks.length % 2 = 1 → 3 ≤ toks.length →
      buildPoly toks = .error .indexError) := by
  constructor
  · intro toks n hlen hn hfl
    refine ⟨?_, buildPoly_even hlen hn hfl⟩
    intro l hl
    obtain ⟨i, hi, rfl⟩ := polyIndices_mem hl
    rw [hlen] at hi ⊢
    omega
  · intro toks hodd h3
    exact buildPoly_odd hodd h3

/-- **C10** witness: a 2-token list builds one triple; a 3-token list
raises `IndexError`. -/
theorem claim_c10_witness :
    ((∀ l ∈ polyIndices (["45.1", "-75.3"] : List String).length,
        l + 1 < (["45.1", "-75.3"] : List String).length)
      ∧ ∃ poly, buildPoly ["45.1", "-75.3"] = .ok poly ∧ poly.length = 1)
    ∧ buildPoly ["45.1", "-75.3", "44.9"] = .error .indexError :=
  ⟨claim_c10_pair_loop.1 ["45.1", "-75.3"] 1 rfl (by decide) (by decide),
   claim_c10_pair_loop.2 ["45.1", "-75.3", "44.9"] rfl (by decide)⟩

/-- **C1** (code bug): on a document whose mappings have unequal sizes
after the expiry filter, `weather_warning2geojson` does not return an
empty feature sequence — `data` is only assigned inside the equal-size
branch, so the trailing `return data` raises `UnboundLocalError`. -/
theorem claim_c1_unequal_sizes :
    weather_warning2geojson nowT "u" docEnglishOnly = .error .unboundLocal
    ∧ (Except.error PyErr.unboundLocal : Except PyErr (List Feature)) ≠ .ok [] :=
  ⟨by decide, by decide⟩

/-- **C2** (counterexample): the scenario document yields exactly one
`Feature`, but its ring is
`[[-75.1,45.1,0.0], [-75.0,45.1,0.0], [-75.0,45.0,0.0], [-75.0,45.0,0.0]]`,
not the ring stated in the claim. -/
theorem claim_c2_counterexample :
    (weather_warning2geojson nowT "u" docBilingual).map (List.map Feature.ring) =
      .ok [ringBilingual]
    ∧ ringBilingual ≠
      [[⟨-75, 0⟩, ⟨451, 1⟩, ⟨0, 0⟩], [⟨-75, 0⟩, ⟨45, 0⟩, ⟨0, 0⟩],
       [⟨-751, 1⟩, ⟨451, 1⟩, ⟨0, 0⟩], [⟨-75, 0⟩, ⟨45, 0⟩, ⟨0, 0⟩]] :=
  ⟨by decide, by decide⟩

/-- **C2** (amended): the scenario document yields exactly one `Feature`
whose ring walks the pairs in reverse order emitting `[lon, lat, 0.0]` —
`[[-75.1,45.1,0.0], [-75.0,45.1,0.0], [-75.0,45.0,0.0]]` — and then
re-appends the pre-dedup last point `[-75.0,45.0,0.0]` as closure. -/
theorem claim_c2_scenario :
    (weather_warning2geojson nowT "u" docBilingual).map (List.map Feature.ring) =
      .ok [ringBilingual] := by
  decide

/-- **C3** (amended): an `info` block whose re-parsed `expires` is not in
the future and whose document identifier is already in the seen-list is
skipped entirely — it leaves the whole state unchanged.  (The converse of
the claim fails: an eligible block need not contribute records, see the
counterexample.) -/
theorem claim_c3_skip {now : DateTime} {identifier lastref url : String}
    {st : BState} {info : InfoBlock} {st' : BState} {d : DateTime}
    (h : processInfo now identifier lastref url st info = .ok st')
    (hd : get_date_format info.expires = some d)
    (hnot : ¬ now.key < d.key) (hid : identifier ∈ st.list_id) :
    st' = st := by
  unfold processInfo at h
  dsimp only at h
  simp only [hd] at h
  simp only [get_date_format_strftime (get_date_format_valid hd)] at h
  have hcond : ¬ (now.key < d.key ∨ identifier ∉ st.list_id) := by
    rintro (hc | hc)
    · exact hnot hc
    · exact hc hid
  rw [if_neg hcond] at h
  injection h with h'
  exact h'.symm

/-- **C3** (counterexample): an eligible block (future expiry, so the
filter condition holds) with no areas contributes nothing to either
mapping, refuting the "if" direction of the claimed equivalence. -/
theorem claim_c3_counterexample :
    get_date_format infoNoAreas.expires = some ⟨2024, 1, 16, 0, 0, 0⟩
    ∧ nowT.key < (DateTime.mk 2024 1 16 0 0 0).key
    ∧ processInfo nowT "id0" "lr0" "u" ⟨[], [], []⟩ infoNoAreas =
        .ok ⟨[], [], ["lr0"]⟩ :=
  ⟨by decide, by decide, by decide⟩

/-- A state that already carries the document identifier in `list_id`. -/
def stSeen : BState := ⟨[], [], ["id0"]⟩

/-- **C3** witness: the skip theorem applied at a concrete ineligible
block (processing time past the expiry, identifier already seen). -/
theorem claim_c3_witness :
    processInfo ⟨2030, 1, 1, 0, 0, 0⟩ "id0" "lr0" "u" stSeen infoNoAreas = .ok stSeen := by
  have h : processInfo ⟨2030, 1, 1, 0, 0, 0⟩ "id0" "lr0" "u" stSeen infoNoAreas =
      .ok stSeen := by decide
  have h2 := claim_c3_skip h
    (by decide : get_date_format infoNoAreas.expires = some ⟨2024, 1, 16, 0, 0, 0⟩)
    (by decide) (by decide)
  exact h.trans (congrArg Except.ok h2)

/-- **C4**: every emitted feature re-parses its `properties.expires` to an
instant not before the processing time captured at the start of the call,
and every key collected for expiry removal is removed from both the
English and the French mappings. -/
theorem claim_c4_expiry :
    (∀ (now : DateTime) (url : String) (doc : CapDocument) (data : List Feature),
      weather_warning2geojson now url doc = .ok data →
      ∀ f ∈ data, ∃ d, get_date_format f.props.expires = some d ∧ ¬ d.key < now.key)
  ∧ (∀ (ks : List String) (en : List (String × EnRecord)) (fr : List (String × FrRecord))
      (en' : List (String × EnRecord)) (fr' : List (String × FrRecord)),
      (keysA en).Nodup → (keysA fr).Nodup → applyRemove ks en fr = .ok (en', fr') →
      ∀ k ∈ ks, k ∉ keysA en' ∧ k ∉ keysA fr') := by
  constructor
  · intro now url doc data h f hf
    unfold weather_warning2geojson at h
    dsimp only at h
    split at h
    · injection h
    next st hst =>
    split at h
    · injection h
    next rks hrem =>
    split at h
    · injection h
    next en2 fr2 happ =>
    obtain ⟨hlen, hbuild⟩ := emitFeatures_ok h
    rcases buildFeatures_mem en2 doc.identifier fr2 [] data hbuild f hf with hin |
      ⟨k, rec, hkrec, hbf⟩
    · cases hin
    rw [buildFeature_expires hbf]
    obtain ⟨hnd_en, hnd_fr⟩ :=
      processInfos_nodup hst (by simp [keysA]) (by simp [keysA])
    obtain ⟨hcr, _⟩ := computeRemove_spec st.english_alert [] rks hrem
    obtain ⟨hsub_en, _, hrm⟩ :=
      applyRemove_spec rks st.english_alert st.french_alert en2 fr2 hnd_en hnd_fr happ
    obtain ⟨d, hd, himp⟩ := hcr k rec (hsub_en _ hkrec)
    refine ⟨d, hd, ?_⟩
    intro hlt
    exact (hrm k (himp hlt)).1 (mem_keysA_of_mem hkrec)
  · intro ks en fr en' fr' hn1 hn2 h
    exact (applyRemove_spec ks en fr en' fr' hn1 hn2 h).2.2

/-- A concrete English record and its French pair, used by witnesses. -/
def enRecW : EnRecord :=
  ⟨["45.0"], "Spot", "Wind warning", "2024-01-15T00:00:00Z", "2024-01-16T00:00:00Z",
    "wind", "warning", "a-450", "Strong winds.", "u"⟩

def frRecW : FrRecord := ⟨"a-450", "Spot", "Avertissement de vent", "Vents forts."⟩

/-- The single feature emitted for `docBilingual`. -/
def featureBilingual : Feature :=
  { props := {
      identifier := "a-450750451750451751"
      area := "Ottawa"
      reference := "urn:oid:ca.2024.01"
      zone := "Ottawa"
      headline := "Wind warning"
      titre := "Avertissement de vent"
      descrip_en := "Strong winds."
      descrip_fr := "Vents forts."
      effective := "2024-01-15T00:00:00Z"
      expires := "2024-01-16T00:00:00Z"
      alert_type := "wind"
      status := "warning"
      url := "u" }
    ring := ringBilingual }

/-- **C4** witness: both parts applied at concrete inputs — the bilingual
scenario's emitted feature, and a one-key removal list. -/
theorem claim_c4_witness :
    (∃ d, get_date_format featureBilingual.props.expires = some d ∧ ¬ d.key < nowT.key)
    ∧ ("a-450" ∉ keysA ([] : List (String × EnRecord))
        ∧ "a-450" ∉ keysA ([] : List (String × FrRecord))) :=
  ⟨claim_c4_expiry.1 nowT "u" docBilingual [featureBilingual] (by decide)
      featureBilingual (by simp),
   claim_c4_expiry.2 ["a-450"] [("a-450", enRecW)] [("a-450", frRecW)] [] []
      (by decide) (by decide) (by decide) "a-450" (by simp)⟩

/-- **C5** (code bug): a record whose polygon token list has a single
token is inserted into the English mapping, but feature assembly then
fails — the pair loop emits nothing and `no_dup_poly.append(poly[-1])`
raises `IndexError` on the empty list, so the call raises instead of
emitting a feature with an empty ring. -/
theorem claim_c5_short_polygon :
    weather_warning2geojson nowT "u" docShortPolygon = .error .indexError
    ∧ (processInfos nowT docShortPolygon.identifier (lastRef docShortPolygon.references)
        "u" ⟨[], [], []⟩ docShortPolygon.infos).map
          (fun st => st.english_alert.map (fun p => (p.1, p.2.split_tag)))
        = .ok [("a-450", ["45.0"])] :=
  ⟨by decide, by decide⟩

/-- **C6**: within one document-processing pass, an existing entry of
either mapping is never overwritten (later occurrences of the same key
leave it unchanged), and the first eligible occurrence of a key stores
exactly the record built from that `info`/`area` pair. -/
theorem claim_c6_first_wins :
    (∀ (now : DateTime) (identifier lastref url : String) (infos : List InfoBlock)
      (st st' : BState),
      processInfos now identifier lastref url st infos = .ok st' →
      (∀ k v, lookupA st.english_alert k = some v → lookupA st'.english_alert k = some v)
      ∧ (∀ k v, lookupA st.french_alert k = some v → lookupA st'.french_alert k = some v))
  ∧ (∀ (headline effective expires warning status_alert descript url : String)
      (st : BState) (a : AreaBlock),
      lookupA st.english_alert (idWarningOf a.polygon) = none →
      lookupA (enInsert headline effective expires warning status_alert descript url
          st a).english_alert (idWarningOf a.polygon)
        = some ⟨splitTag a.polygon, a.areaDesc, headline, effective, expires, warning,
            status_alert, idWarningOf a.polygon, descript, url⟩)
  ∧ (∀ (headline descript : String) (st : BState) (a : AreaBlock),
      lookupA st.french_alert (idWarningOf a.polygon) = none →
      lookupA (frInsert headline descript st a).french_alert (idWarningOf a.polygon)
        = some ⟨idWarningOf a.polygon, a.areaDesc, headline, descript⟩) := by
  refine ⟨?_, ?_, ?_⟩
  · intro now identifier lastref url infos st st' h
    exact processInfos_preserve h
  · intro headline effective expires warning status_alert descript url st a h
    unfold enInsert
    dsimp only
    rw [if_pos h]
    exact lookupA_append_new _ h
  · intro headline descript st a h
    unfold frInsert
    dsimp only
    rw [if_pos h]
    exact lookupA_append_new _ h

/-- A state holding one English and one French record under key
`"a-450"`. -/
def stOneKey : BState := ⟨[("a-450", frRecW)], [("a-450", enRecW)], []⟩

/-- `stOneKey` after processing an eligible area-less `info` block: only
`list_id` changes. -/
def stOneKeyAfter : BState := ⟨[("a-450", frRecW)], [("a-450", enRecW)], ["lr0"]⟩

/-- **C6** witness: preservation across a processed block, and the two
first-insertion characterizations, at concrete inputs. -/
theorem claim_c6_witness :
    lookupA stOneKeyAfter.english_alert "a-450" = some enRecW
    ∧ lookupA (enInsert "h" "e" "x" "w" "s" "d" "u" ⟨[], [], []⟩
        ⟨"45.0", "Spot"⟩).english_alert (idWarningOf "45.0")
      = some ⟨splitTag "45.0", "Spot", "h", "e", "x", "w", "s", idWarningOf "45.0",
          "d", "u"⟩
    ∧ lookupA (frInsert "h" "d" ⟨[], [], []⟩ ⟨"45.0", "Spot"⟩).french_alert
        (idWarningOf "45.0")
      = some ⟨idWarningOf "45.0", "Spot", "h", "d"⟩ :=
  ⟨(claim_c6_first_wins.1 nowT "id0" "lr0" "u" [infoNoAreas] stOneKey stOneKeyAfter
      (by decide)).1 "a-450" enRecW (by decide),
   claim_c6_first_wins.2.1 "h" "e" "x" "w" "s" "d" "u" ⟨[], [], []⟩ ⟨"45.0", "Spot"⟩
      (by decide),
   claim_c6_first_wins.2.2 "h" "d" ⟨[], [], []⟩ ⟨"45.0", "Spot"⟩ (by decide)⟩

end CapAlerts
